import Mathlib

/-!
Shallow embedding of the network-breaking information-cascade model:
the tie adjustment policy from
model/scripts/deprecated/model_networkbreaking_allmethods.py and the
behavior evaluation from scripts/cascade_models/cascades/evaluate_behavior.py.

Conventions of the embedding:
- the adjacency matrix is a function Fin n -> Fin n -> Bool (entry 1 = true);
- behavioral state vectors keep their numeric type (entries compared to 0/1
  exactly as the source compares with == 1 and == 0), modelled over the
  rationals;
- numpy random choices are modelled by an external counter c : Nat picking
  the element at index c % length of the candidate list, so theorems
  quantify over every possible uniform draw; np.random.choice applied to an
  EMPTY candidate list raises ValueError in numpy, modelled as Option.none;
- a call that returns normally is Option.some of the resulting network.
-/

abbrev Net (n : ℕ) := Fin n → Fin n → Bool

/-- Model of np.random.choice(l, size=1): picks an element of the candidate
list when it is nonempty (the index is an arbitrary uniform draw c), and
raises (none) when the list is empty. -/
def npChoice {α : Type} (l : List α) (c : ℕ) : Option α :=
  match l with
  | [] => none
  | x :: xs => some ((x :: xs).get ⟨c % (xs.length + 1), Nat.mod_lt c (Nat.succ_pos xs.length)⟩)

/-- Indices of active individuals: np.where(states == 1)[0]. -/
def activeIdxs {n : ℕ} (states : Fin n → ℚ) : List (Fin n) :=
  (List.finRange n).filter (fun i => states i = 1)

/-- The guard value of adjust_tie: Python sum(actives), the sum of the
ACTIVE INDICES themselves (not the number of active individuals). -/
def sumActiveIdx {n : ℕ} (states : Fin n → ℚ) : ℕ :=
  ((activeIdxs states).map Fin.val).sum

/-- Neighbors of individual i: np.where(network[i,:] == 1). -/
def neighborsOf {n : ℕ} (network : Net n) (i : Fin n) : List (Fin n) :=
  (List.finRange n).filter (fun j => network i j)

/-- The list comprehension [ind for ind in actives if ind in individual_neighbors]. -/
def perceivedIncorrect {n : ℕ} (states : Fin n → ℚ) (network : Net n)
    (i : Fin n) : List (Fin n) :=
  (activeIdxs states).filter (fun a => (neighborsOf network i).contains a)

/-- Assignment network[a, b] = v. -/
def setTie {n : ℕ} (network : Net n) (a b : Fin n) (v : Bool) : Net n :=
  fun i j => if i = a ∧ j = b then v else network i j

/-- Candidate targets for a new tie of former_individual: indices j with
network[former, j] == 0, with former itself deleted (self-loop prevention). -/
def potentialTies {n : ℕ} (network : Net n) (former : Fin n) : List (Fin n) :=
  ((List.finRange n).filter (fun j => network former j = false)).filter
    (fun j => j ≠ former)

/-- Tie formation block of adjust_tie: if len(potential_ties) > 0, choose a
new tie uniformly and set it; otherwise leave the network unchanged.
npChoice returns none exactly on the empty list, so the none branch is the
len == 0 guard of the source. -/
def form_tie_step {n : ℕ} (network : Net n) (former : Fin n) (c : ℕ) : Net n :=
  match npChoice (potentialTies network former) c with
  | none => network
  | some new_tie => setTie network former new_tie true

/-- The adjust_tie function of model_networkbreaking_allmethods.py.
c1, c2, c3, c4 are the uniform draws of the four np.random.choice calls
(adjuster, broken tie, former individual, new tie). The perceived_incorrect
choice is NOT guarded in the source, so an empty candidate list there
raises (returns none). -/
def adjust_tie {n : ℕ} (network : Net n) (states : Fin n → ℚ)
    (correct : Fin n → Bool) (c1 c2 c3 c4 : ℕ) : Option (Net n) :=
  if sumActiveIdx states > 0 then
    match npChoice (activeIdxs states) c1 with
    | none => none
    | some individual_active =>
      if correct individual_active then some network
      else
        match npChoice (perceivedIncorrect states network individual_active) c2 with
        | none => none
        | some break_tie =>
          match npChoice (List.finRange n) c3 with
          | none => none
          | some former_individual =>
            some (form_tie_step
              (setTie network individual_active break_tie false)
              former_individual c4)
  else some network

/-- Out-degree of individual i: row sum of the adjacency matrix. -/
def outDeg {n : ℕ} (network : Net n) (i : Fin n) : ℕ :=
  ∑ j, (network i j).toNat

/-- Row of the behavior accumulator dataframe. -/
structure BehaviorRow where
  individual : ℕ
  true_positive : ℕ
  false_negative : ℕ
  true_negative : ℕ
  false_positive : ℕ
deriving DecidableEq

/-- Total of the four error-type counters of one accumulator row. -/
def rowTotal (r : BehaviorRow) : ℕ :=
  r.true_positive + r.false_negative + r.true_negative + r.false_positive

/-- true_stim = np.dot(types, np.transpose(stimuli)): per-individual
type-weighted stimulus value. -/
def true_stim {n s : ℕ} (types : Fin n → Fin s → ℚ) (stimuli : Fin s → ℚ) :
    Fin n → ℚ :=
  fun i => ∑ j, types i j * stimuli j

/-- correct_behavior = true_stim > thresholds. -/
def correct_behavior {n s : ℕ} (types : Fin n → Fin s → ℚ)
    (stimuli : Fin s → ℚ) (thresholds : Fin n → ℚ) : Fin n → Bool :=
  fun i => decide (thresholds i < true_stim types stimuli i)

/-- Mask (states == 1) & correct_behavior. -/
def true_positive {n : ℕ} (states : Fin n → ℚ) (cb : Fin n → Bool) :
    Fin n → Bool :=
  fun i => decide (states i = 1) && cb i

/-- Mask (states == 0) & ~correct_behavior. -/
def true_negative {n : ℕ} (states : Fin n → ℚ) (cb : Fin n → Bool) :
    Fin n → Bool :=
  fun i => decide (states i = 0) && !cb i

/-- Mask (states == 1) & ~correct_behavior. -/
def false_positive {n : ℕ} (states : Fin n → ℚ) (cb : Fin n → Bool) :
    Fin n → Bool :=
  fun i => decide (states i = 1) && !cb i

/-- Mask (states == 0) & correct_behavior. -/
def false_negative {n : ℕ} (states : Fin n → ℚ) (cb : Fin n → Bool) :
    Fin n → Bool :=
  fun i => decide (states i = 0) && cb i

/-- The evaluate_behavior function of evaluate_behavior.py: returns the
correctness vector and the updated behavior accumulator. -/
def evaluate_behavior {n s : ℕ} (states : Fin n → ℚ) (thresholds : Fin n → ℚ)
    (stimuli : Fin s → ℚ) (types : Fin n → Fin s → ℚ)
    (behavior_df : Fin n → BehaviorRow) :
    (Fin n → Bool) × (Fin n → BehaviorRow) :=
  let cb := correct_behavior types stimuli thresholds
  (cb, fun i =>
    { individual := (behavior_df i).individual
      true_positive := (behavior_df i).true_positive + (true_positive states cb i).toNat
      false_negative := (behavior_df i).false_negative + (false_negative states cb i).toNat
      true_negative := (behavior_df i).true_negative + (true_negative states cb i).toNat
      false_positive := (behavior_df i).false_positive + (false_positive states cb i).toNat })

/-- Python int() truncation toward zero, applied to an exact rational. -/
def pyTrunc (q : ℚ) : ℤ :=
  if 0 ≤ q then ⌊q⌋ else ⌈q⌉

/-- Seed derivation of sim_adjusting_network:
seed = int((replicate + 1 + gamma) * 323). -/
def sim_seed (replicate : ℤ) (gamma : ℚ) : ℤ :=
  pyTrunc (((replicate : ℚ) + 1 + gamma) * 323)

/-- Driver loop of sim_adjusting_network over the embedded evaluate_behavior
and adjust_tie. Collaborators out of scope per the spec (threshold and type
seeding, network seeding, stimulus sampling, cascade propagation) are function
parameters; all randomness is read from one stream obtained by seeding the
generator collaborator rng once with sim_seed replicate gamma, exactly as the
source calls np.random.seed(seed) once. A raise inside adjust_tie aborts the
run (none); a normal run returns the final network and behavior accumulator. -/
def sim_adjusting_network (n s timesteps : ℕ) (replicate : ℤ) (gamma : ℚ)
    (rng : ℤ → ℕ → ℕ)
    (seed_thresholds : (ℕ → ℕ) → Fin n → ℚ)
    (assign_type : (ℕ → ℕ) → Fin n → Fin s → ℚ)
    (seed_social_network : (ℕ → ℕ) → Net n)
    (simulate_stim_sampling : (ℕ → ℕ) → ℕ → (Fin s → ℚ) × (Fin n → ℚ))
    (simulate_cascade : Net n → (Fin n → ℚ) → Fin n → ℚ) :
    Option (Net n × (Fin n → BehaviorRow)) :=
  let stream := rng (sim_seed replicate gamma)
  let thresh_mat := seed_thresholds stream
  let type_mat := assign_type stream
  let behavior0 : Fin n → BehaviorRow := fun i => ⟨i.val, 0, 0, 0, 0⟩
  let final := (List.range timesteps).foldl
    (fun acc t =>
      match acc with
      | none => none
      | some (net, behavior, d) =>
        let sampled := simulate_stim_sampling stream t
        let state_mat := simulate_cascade net sampled.2
        let eval := evaluate_behavior state_mat thresh_mat sampled.1 type_mat behavior
        match adjust_tie net state_mat eval.1 (stream d) (stream (d + 1))
            (stream (d + 2)) (stream (d + 3)) with
        | none => none
        | some net2 => some (net2, eval.2, d + 4))
    (some (seed_social_network stream, behavior0, 0))
  final.map (fun r => (r.1, r.2.1))

/-- Concrete 3-individual network used to exercise the full rewiring path:
a single tie from individual 1 to individual 2. -/
def scenarioNet : Net 3 := fun i j => decide (i.val = 1 ∧ j.val = 2)

/-- Concrete state vector for the 3-individual scenario: individuals 1 and 2
active, individual 0 inactive. -/
def scenarioStates : Fin 3 → ℚ := fun i => if i.val = 0 then 0 else 1

/-- Concrete correctness vector marking every individual incorrect. -/
def scenarioCorrect : Fin 3 → Bool := fun _ => false

/-! ### Helper lemmas -/

theorem npChoice_mem {α : Type} {l : List α} {c : ℕ} {x : α}
    (h : npChoice l c = some x) : x ∈ l := by
  cases l with
  | nil => simp [npChoice] at h
  | cons a as =>
    simp only [npChoice, Option.some.injEq] at h
    exact h ▸ List.get_mem _ _ _

theorem npChoice_eq_none_iff {α : Type} {l : List α} {c : ℕ} :
    npChoice l c = none ↔ l = [] := by
  cases l <;> simp [npChoice]

theorem mem_activeIdxs {n : ℕ} {states : Fin n → ℚ} {x : Fin n} :
    x ∈ activeIdxs states ↔ states x = 1 := by
  simp [activeIdxs, List.mem_filter]

theorem mem_neighborsOf {n : ℕ} {network : Net n} {i x : Fin n} :
    x ∈ neighborsOf network i ↔ network i x = true := by
  simp [neighborsOf, List.mem_filter]

theorem mem_perceivedIncorrect {n : ℕ} {states : Fin n → ℚ} {network : Net n}
    {i x : Fin n} (h : x ∈ perceivedIncorrect states network i) :
    network i x = true := by
  simp only [perceivedIncorrect, List.mem_filter] at h
  exact mem_neighborsOf.mp (List.elem_iff.mp h.2)

theorem mem_potentialTies {n : ℕ} {network : Net n} {f x : Fin n}
    (h : x ∈ potentialTies network f) : network f x = false ∧ x ≠ f := by
  simp only [potentialTies, List.mem_filter, decide_eq_true_eq] at h
  exact ⟨h.1.2, h.2⟩

theorem setTie_same {n : ℕ} (network : Net n) (a b : Fin n) (v : Bool) :
    setTie network a b v a b = v := by
  simp [setTie]

theorem setTie_ne {n : ℕ} (network : Net n) {a b i j : Fin n} (v : Bool)
    (h : ¬(i = a ∧ j = b)) : setTie network a b v i j = network i j := by
  simp [setTie, h]

theorem outDeg_setTie_row_ne {n : ℕ} (network : Net n) {a i : Fin n}
    (b : Fin n) (v : Bool) (h : i ≠ a) :
    outDeg (setTie network a b v) i = outDeg network i := by
  unfold outDeg
  refine Finset.sum_congr rfl (fun j _ => ?_)
  rw [setTie_ne network v (fun hc => h hc.1)]

theorem outDeg_setTie_row {n : ℕ} (network : Net n) (a b : Fin n) (v : Bool) :
    outDeg (setTie network a b v) a + (network a b).toNat
      = outDeg network a + v.toNat := by
  unfold outDeg
  have h1 : ∑ j, (setTie network a b v a j).toNat
      = v.toNat + ∑ j ∈ Finset.univ.erase b, (network a j).toNat := by
    rw [← Finset.add_sum_erase _ _ (Finset.mem_univ b), setTie_same]
    congr 1
    refine Finset.sum_congr rfl (fun j hj => ?_)
    rw [setTie_ne network v (fun hc => (Finset.ne_of_mem_erase hj) hc.2)]
  have h2 : ∑ j, (network a j).toNat
      = (network a b).toNat + ∑ j ∈ Finset.univ.erase b, (network a j).toNat :=
    (Finset.add_sum_erase _ _ (Finset.mem_univ b)).symm
  rw [h1, h2]
  omega

theorem outDeg_setTie_le {n : ℕ} (network : Net n) (a b i : Fin n) (v : Bool) :
    outDeg (setTie network a b v) i ≤ outDeg network i + 1 ∧
      outDeg network i ≤ outDeg (setTie network a b v) i + 1 := by
  by_cases h : i = a
  · subst h
    have hrow := outDeg_setTie_row network i b v
    have hv : v.toNat ≤ 1 := Bool.toNat_le v
    have hn : (network i b).toNat ≤ 1 := Bool.toNat_le _
    omega
  · rw [outDeg_setTie_row_ne network b v h]
    omega

theorem outDeg_setTie_false_le {n : ℕ} (network : Net n) (a b i : Fin n) :
    outDeg (setTie network a b false) i ≤ outDeg network i := by
  by_cases h : i = a
  · subst h
    have hrow := outDeg_setTie_row network i b false
    have h0 : (false : Bool).toNat = 0 := rfl
    omega
  · rw [outDeg_setTie_row_ne network b false h]

theorem outDeg_setTie_true_ge {n : ℕ} (network : Net n) (a b i : Fin n) :
    outDeg network i ≤ outDeg (setTie network a b true) i := by
  by_cases h : i = a
  · subst h
    have hrow := outDeg_setTie_row network i b true
    have hn : (network i b).toNat ≤ 1 := Bool.toNat_le _
    have h1 : (true : Bool).toNat = 1 := rfl
    omega
  · rw [outDeg_setTie_row_ne network b true h]

/-- Case analysis of a normally-returning call to adjust_tie: the network is
unchanged, or exactly one tie (adjuster, broken neighbor) is removed, or one
tie is removed and one tie (former, new target) is added. -/
theorem adjust_tie_cases {n : ℕ} {network : Net n} {states : Fin n → ℚ}
    {correct : Fin n → Bool} {c1 c2 c3 c4 : ℕ} {net2 : Net n}
    (h : adjust_tie network states correct c1 c2 c3 c4 = some net2) :
    net2 = network ∨
    ∃ adj bt former : Fin n, network adj bt = true ∧
      (net2 = setTie network adj bt false ∨
        ∃ t : Fin n, t ≠ former ∧ setTie network adj bt false former t = false ∧
          net2 = setTie (setTie network adj bt false) former t true) := by
  unfold adjust_tie at h
  split at h
  · cases hc1 : npChoice (activeIdxs states) c1 with
    | none => rw [hc1] at h; exact absurd h (by simp)
    | some adj =>
      rw [hc1] at h
      dsimp only at h
      by_cases hcorr : correct adj
      · rw [if_pos hcorr] at h
        exact Or.inl (Option.some.injEq .. ▸ h.symm ▸ rfl)
      · rw [if_neg hcorr] at h
        cases hc2 : npChoice (perceivedIncorrect states network adj) c2 with
        | none => rw [hc2] at h; exact absurd h (by simp)
        | some bt =>
          rw [hc2] at h
          dsimp only at h
          have hab : network adj bt = true :=
            mem_perceivedIncorrect (npChoice_mem hc2)
          cases hc3 : npChoice (List.finRange n) c3 with
          | none => rw [hc3] at h; exact absurd h (by simp)
          | some former =>
            rw [hc3] at h
            dsimp only at h
            have hnet2 : form_tie_step (setTie network adj bt false) former c4 = net2 :=
              Option.some.inj h
            refine Or.inr ⟨adj, bt, former, hab, ?_⟩
            unfold form_tie_step at hnet2
            cases hc4 : npChoice (potentialTies (setTie network adj bt false) former) c4 with
            | none => rw [hc4] at hnet2; exact Or.inl hnet2.symm
            | some t =>
              rw [hc4] at hnet2
              obtain ⟨hft, htf⟩ := mem_potentialTies (npChoice_mem hc4)
              exact Or.inr ⟨t, htf, hft, hnet2.symm⟩
  · exact Or.inl (Option.some.inj h).symm

/-- For a binary state vector, the four error-type masks are mutually
exclusive and exhaustive: their indicator values sum to 1 for every
individual. -/
theorem mask_partition {n s : ℕ} (states : Fin n → ℚ) (thresholds : Fin n → ℚ)
    (stimuli : Fin s → ℚ) (types : Fin n → Fin s → ℚ)
    (hbin : ∀ i, states i = 0 ∨ states i = 1) (i : Fin n) :
    (true_positive states (correct_behavior types stimuli thresholds) i).toNat
      + (true_negative states (correct_behavior types stimuli thresholds) i).toNat
      + (false_positive states (correct_behavior types stimuli thresholds) i).toNat
      + (false_negative states (correct_behavior types stimuli thresholds) i).toNat
      = 1 := by
  simp only [true_positive, true_negative, false_positive, false_negative]
  cases hcb : correct_behavior types stimuli thresholds i <;>
    rcases hbin i with h | h <;>
      norm_num [h]

/-! ### Claim theorems -/

/-- C1: the claim says that when the selected adjuster is incorrect and has
no active neighbors, adjust_tie returns the network unchanged without error.
The code instead calls np.random.choice on the empty perceived_incorrect
list, which raises ValueError: at the concrete input n = 2, empty network,
only individual 1 active and incorrect, the call raises (returns none) for
every possible later draw. -/
theorem claim_C1 :
    ∀ c2 c3 c4 : ℕ,
      adjust_tie (n := 2) (fun _ _ => false)
        (fun i => if i.val = 1 then 1 else 0) (fun _ => false) 0 c2 c3 c4 =
        none :=
  fun _ _ _ => rfl

/-- C2: the claim says every call with at least one active individual
(including when the only active individual is individual 0) proceeds past
the no-active guard. The code guard is sum(actives) > 0 over the ACTIVE
INDICES, so with only individual 0 active the sum is 0 and the call returns
the network unchanged for every possible draw, never selecting an adjuster,
although the active list is nonempty. -/
theorem claim_C2 :
    activeIdxs (n := 2) (fun i => if i.val = 0 then 1 else 0) ≠ [] ∧
    ∀ c1 c2 c3 c4 : ℕ,
      adjust_tie (n := 2) (fun i j => decide (i.val = 0 ∧ j.val = 1))
        (fun i => if i.val = 0 then 1 else 0) (fun _ => false) c1 c2 c3 c4 =
        some (fun i j => decide (i.val = 0 ∧ j.val = 1)) :=
  ⟨by decide, fun _ _ _ _ => rfl⟩

/-- C3: for a binary state vector the four masks true_positive,
true_negative, false_positive, false_negative partition the population
(each individual is in exactly one), every accumulator row grows by exactly
1 per call, and the total per-call increment over the population is n. -/
theorem claim_C3 {n s : ℕ} (states : Fin n → ℚ) (thresholds : Fin n → ℚ)
    (stimuli : Fin s → ℚ) (types : Fin n → Fin s → ℚ)
    (behavior_df : Fin n → BehaviorRow)
    (hbin : ∀ i, states i = 0 ∨ states i = 1) :
    (∀ i, (true_positive states (correct_behavior types stimuli thresholds) i).toNat
        + (true_negative states (correct_behavior types stimuli thresholds) i).toNat
        + (false_positive states (correct_behavior types stimuli thresholds) i).toNat
        + (false_negative states (correct_behavior types stimuli thresholds) i).toNat
        = 1) ∧
    (∀ i, rowTotal ((evaluate_behavior states thresholds stimuli types behavior_df).2 i)
        = rowTotal (behavior_df i) + 1) ∧
    (∑ i, rowTotal ((evaluate_behavior states thresholds stimuli types behavior_df).2 i))
      = (∑ i, rowTotal (behavior_df i)) + n := by
  have key := mask_partition states thresholds stimuli types hbin
  have row : ∀ i, rowTotal ((evaluate_behavior states thresholds stimuli types behavior_df).2 i)
      = rowTotal (behavior_df i) + 1 := by
    intro i
    have hk := key i
    simp only [evaluate_behavior, rowTotal]
    omega
  refine ⟨key, row, ?_⟩
  calc (∑ i, rowTotal ((evaluate_behavior states thresholds stimuli types behavior_df).2 i))
      = ∑ i, (rowTotal (behavior_df i) + 1) :=
        Finset.sum_congr rfl (fun i _ => row i)
    _ = (∑ i, rowTotal (behavior_df i)) + n := by
        rw [Finset.sum_add_distrib, Finset.sum_const, Finset.card_univ,
          Fintype.card_fin, smul_eq_mul, mul_one]

/-- C4: the correctness vector returned by evaluate_behavior is
correct_behavior[i] = (types . stimuli)[i] > thresholds[i] for every i, and
it does not depend on the state vector. -/
theorem claim_C4 {n s : ℕ} (states : Fin n → ℚ) (thresholds : Fin n → ℚ)
    (stimuli : Fin s → ℚ) (types : Fin n → Fin s → ℚ)
    (behavior_df : Fin n → BehaviorRow) :
    (∀ i, (evaluate_behavior states thresholds stimuli types behavior_df).1 i
        = decide (thresholds i < true_stim types stimuli i)) ∧
    ∀ states2 : Fin n → ℚ,
      (evaluate_behavior states2 thresholds stimuli types behavior_df).1
        = (evaluate_behavior states thresholds stimuli types behavior_df).1 :=
  ⟨fun _ => rfl, fun _ => rfl⟩

/-- C5: if the input network has a zero diagonal, any network returned
normally by adjust_tie has a zero diagonal: neither removal nor formation
ever sets a self-loop. -/
theorem claim_C5 {n : ℕ} (network : Net n) (states : Fin n → ℚ)
    (correct : Fin n → Bool) (c1 c2 c3 c4 : ℕ) (net2 : Net n)
    (hdiag : ∀ i, network i i = false)
    (h : adjust_tie network states correct c1 c2 c3 c4 = some net2) :
    ∀ i, net2 i i = false := by
  rcases adjust_tie_cases h with rfl | ⟨adj, bt, former, hab, rfl | ⟨t, htf, hft, rfl⟩⟩
  · exact hdiag
  · intro i
    simp only [setTie]
    split
    · rfl
    · exact hdiag i
  · intro i
    simp only [setTie]
    split
    · rename_i hc
      exact absurd (hc.2.symm.trans hc.1) htf
    · split
      · rfl
      · exact hdiag i

/-- C6: in a call of adjust_tie that reaches the tie-formation step, if a
candidate not tied to the former and distinct from it exists, one candidate
is selected (for some draw of the uniform choice, each list element being
reachable) and that directed tie is set to 1; with no candidate, the
formation step is a no-op and the call still returns normally. -/
theorem claim_C6 {n : ℕ} (network : Net n) (states : Fin n → ℚ)
    (correct : Fin n → Bool) (c1 c2 c3 c4 : ℕ) (adj bt former : Fin n)
    (hsum : sumActiveIdx states > 0)
    (hc1 : npChoice (activeIdxs states) c1 = some adj)
    (hcorr : correct adj = false)
    (hc2 : npChoice (perceivedIncorrect states network adj) c2 = some bt)
    (hc3 : npChoice (List.finRange n) c3 = some former) :
    (potentialTies (setTie network adj bt false) former ≠ [] →
      ∃ t ∈ potentialTies (setTie network adj bt false) former,
        adjust_tie network states correct c1 c2 c3 c4 =
          some (setTie (setTie network adj bt false) former t true)) ∧
    (potentialTies (setTie network adj bt false) former = [] →
      adjust_tie network states correct c1 c2 c3 c4 =
        some (setTie network adj bt false)) := by
  have hrun : adjust_tie network states correct c1 c2 c3 c4 =
      some (form_tie_step (setTie network adj bt false) former c4) := by
    unfold adjust_tie
    rw [if_pos hsum, hc1]
    dsimp only
    rw [hcorr]
    simp only [Bool.false_eq_true, if_false]
    rw [hc2]
    dsimp only
    rw [hc3]
  constructor
  · intro hne
    cases hc4 : npChoice (potentialTies (setTie network adj bt false) former) c4 with
    | none => exact absurd (npChoice_eq_none_iff.mp hc4) hne
    | some t =>
      refine ⟨t, npChoice_mem hc4, ?_⟩
      rw [hrun]
      unfold form_tie_step
      rw [hc4]
  · intro hempty
    rw [hrun]
    unfold form_tie_step
    rw [npChoice_eq_none_iff.mpr hempty]

/-- C7: any call of adjust_tie that returns normally changes the out-degree
of every individual by at most 1 in either direction. -/
theorem claim_C7 {n : ℕ} (network : Net n) (states : Fin n → ℚ)
    (correct : Fin n → Bool) (c1 c2 c3 c4 : ℕ) (net2 : Net n)
    (h : adjust_tie network states correct c1 c2 c3 c4 = some net2) :
    ∀ i, outDeg net2 i ≤ outDeg network i + 1 ∧
      outDeg network i ≤ outDeg net2 i + 1 := by
  rcases adjust_tie_cases h with rfl | ⟨adj, bt, former, hab, rfl | ⟨t, htf, hft, rfl⟩⟩
  · intro i; omega
  · intro i; exact outDeg_setTie_le network adj bt i false
  · intro i
    have h1 := outDeg_setTie_false_le network adj bt i
    have h2 := (outDeg_setTie_le network adj bt i false).2
    have h3 := outDeg_setTie_true_ge (setTie network adj bt false) former t i
    have h4 := (outDeg_setTie_le (setTie network adj bt false) former t i true).1
    omega

/-- C8: the seed used by sim_adjusting_network is the deterministic function
int((replicate + 1 + gamma) * 323) of replicate and gamma alone, so two runs
with equal replicate, equal gamma, and the same collaborators use the same
seed and produce identical final networks and behavior accumulators. -/
theorem claim_C8 (n s timesteps : ℕ) (r1 r2 : ℤ) (g1 g2 : ℚ)
    (rng : ℤ → ℕ → ℕ)
    (seed_thresholds : (ℕ → ℕ) → Fin n → ℚ)
    (assign_type : (ℕ → ℕ) → Fin n → Fin s → ℚ)
    (seed_social_network : (ℕ → ℕ) → Net n)
    (simulate_stim_sampling : (ℕ → ℕ) → ℕ → (Fin s → ℚ) × (Fin n → ℚ))
    (simulate_cascade : Net n → (Fin n → ℚ) → Fin n → ℚ)
    (hr : r1 = r2) (hg : g1 = g2) :
    sim_seed r1 g1 = sim_seed r2 g2 ∧
    sim_adjusting_network n s timesteps r1 g1 rng seed_thresholds assign_type
        seed_social_network simulate_stim_sampling simulate_cascade =
      sim_adjusting_network n s timesteps r2 g2 rng seed_thresholds assign_type
        seed_social_network simulate_stim_sampling simulate_cascade := by
  subst hr
  subst hg
  exact ⟨rfl, rfl⟩

/-- C9: any call of adjust_tie that returns normally changes at most two
entries of the adjacency matrix: one entry (adjuster, removed neighbor) may
only change from 1 to 0, one entry (former, new target) may only change from
0 to 1, and every other entry is unchanged. -/
theorem claim_C9 {n : ℕ} (network : Net n) (states : Fin n → ℚ)
    (correct : Fin n → Bool) (c1 c2 c3 c4 : ℕ) (net2 : Net n)
    (h : adjust_tie network states correct c1 c2 c3 c4 = some net2) :
    (∀ i j, net2 i j = network i j) ∨
    ∃ a b f t : Fin n,
      (∀ i j, ¬(i = a ∧ j = b) → ¬(i = f ∧ j = t) → net2 i j = network i j) ∧
      (net2 a b ≠ network a b → network a b = true ∧ net2 a b = false) ∧
      ((f, t) ≠ (a, b) → net2 f t ≠ network f t →
        network f t = false ∧ net2 f t = true) := by
  rcases adjust_tie_cases h with rfl | ⟨adj, bt, former, hab, rfl | ⟨t, htf, hft, rfl⟩⟩
  · exact Or.inl (fun i j => rfl)
  · refine Or.inr ⟨adj, bt, adj, bt, ?_, ?_, ?_⟩
    · intro i j hne _
      exact setTie_ne network false hne
    · intro _
      exact ⟨hab, setTie_same network adj bt false⟩
    · intro hpair
      exact absurd rfl hpair
  · refine Or.inr ⟨adj, bt, former, t, ?_, ?_, ?_⟩
    · intro i j hne1 hne2
      rw [setTie_ne _ true hne2, setTie_ne network false hne1]
    · intro hchange
      by_cases hpair : adj = former ∧ bt = t
      · exfalso
        apply hchange
        have e1 : setTie (setTie network adj bt false) former t true adj bt = true := by
          rw [hpair.1, hpair.2]
          exact setTie_same _ former t true
        rw [e1, hab]
      · have e1 : setTie (setTie network adj bt false) former t true adj bt
            = setTie network adj bt false adj bt := setTie_ne _ true hpair
        rw [e1, setTie_same network adj bt false]
        exact ⟨hab, rfl⟩
    · intro hpairne _
      constructor
      · have hc : ¬(former = adj ∧ t = bt) := by
          intro hc
          exact hpairne (by rw [hc.1, hc.2])
        rw [← hft, setTie_ne network false hc]
      · exact setTie_same _ former t true

/-- C10: the seed derivation is not injective: (replicate, gamma) = (1, 0)
and (0, 1) are distinct parameter pairs with the same seed. -/
theorem claim_C10 :
    sim_seed 1 0 = sim_seed 0 1 ∧ ((1 : ℤ), (0 : ℚ)) ≠ ((0 : ℤ), (1 : ℚ)) := by
  constructor
  · norm_num [sim_seed]
  · decide

/-! ### Witnesses: concrete instantiations of the hypothesised theorems -/

theorem claim_C5_witness :
    (∀ i : Fin 3, scenarioNet i i = false) ∧
    (∀ i : Fin 3, form_tie_step (setTie scenarioNet 1 2 false) 0 0 i i = false) :=
  ⟨by decide,
    claim_C5 scenarioNet scenarioStates scenarioCorrect 0 0 0 0
      (form_tie_step (setTie scenarioNet 1 2 false) 0 0) (by decide) rfl⟩

theorem claim_C6_witness :
    sumActiveIdx scenarioStates > 0 ∧
    npChoice (activeIdxs scenarioStates) 0 = some 1 ∧
    scenarioCorrect 1 = false ∧
    npChoice (perceivedIncorrect scenarioStates scenarioNet 1) 0 = some 2 ∧
    npChoice (List.finRange 3) 0 = some 0 ∧
    ((potentialTies (setTie scenarioNet 1 2 false) 0 ≠ [] →
        ∃ t ∈ potentialTies (setTie scenarioNet 1 2 false) 0,
          adjust_tie scenarioNet scenarioStates scenarioCorrect 0 0 0 0 =
            some (setTie (setTie scenarioNet 1 2 false) 0 t true)) ∧
      (potentialTies (setTie scenarioNet 1 2 false) 0 = [] →
        adjust_tie scenarioNet scenarioStates scenarioCorrect 0 0 0 0 =
          some (setTie scenarioNet 1 2 false))) :=
  ⟨by decide, by decide, rfl, by decide, by decide,
    claim_C6 scenarioNet scenarioStates scenarioCorrect 0 0 0 0 1 2 0
      (by decide) (by decide) rfl (by decide) (by decide)⟩

theorem claim_C7_witness :
    adjust_tie scenarioNet scenarioStates scenarioCorrect 0 0 0 0 =
      some (form_tie_step (setTie scenarioNet 1 2 false) 0 0) ∧
    ∀ i, outDeg (form_tie_step (setTie scenarioNet 1 2 false) 0 0) i
        ≤ outDeg scenarioNet i + 1 ∧
      outDeg scenarioNet i ≤ outDeg (form_tie_step (setTie scenarioNet 1 2 false) 0 0) i + 1 :=
  ⟨rfl, claim_C7 scenarioNet scenarioStates scenarioCorrect 0 0 0 0 _ rfl⟩

theorem claim_C9_witness :
    adjust_tie scenarioNet scenarioStates scenarioCorrect 0 0 0 0 =
      some (form_tie_step (setTie scenarioNet 1 2 false) 0 0) ∧
    ((∀ i j, form_tie_step (setTie scenarioNet 1 2 false) 0 0 i j = scenarioNet i j) ∨
      ∃ a b f t : Fin 3,
        (∀ i j, ¬(i = a ∧ j = b) → ¬(i = f ∧ j = t) →
          form_tie_step (setTie scenarioNet 1 2 false) 0 0 i j = scenarioNet i j) ∧
        (form_tie_step (setTie scenarioNet 1 2 false) 0 0 a b ≠ scenarioNet a b →
          scenarioNet a b = true ∧ form_tie_step (setTie scenarioNet 1 2 false) 0 0 a b = false) ∧
        ((f, t) ≠ (a, b) →
          form_tie_step (setTie scenarioNet 1 2 false) 0 0 f t ≠ scenarioNet f t →
          scenarioNet f t = false ∧ form_tie_step (setTie scenarioNet 1 2 false) 0 0 f t = true)) :=
  ⟨rfl, claim_C9 scenarioNet scenarioStates scenarioCorrect 0 0 0 0 _ rfl⟩

theorem claim_C8_witness :
    ((0 : ℤ) = 0) ∧ ((0 : ℚ) = 0) ∧
    (sim_seed 0 0 = sim_seed 0 0 ∧
      sim_adjusting_network 1 1 1 0 0 (fun _ _ => 0) (fun _ _ => 0)
          (fun _ _ _ => 0) (fun _ _ _ => false) (fun _ _ => (fun _ => 0, fun _ => 0))
          (fun _ st => st) =
        sim_adjusting_network 1 1 1 0 0 (fun _ _ => 0) (fun _ _ => 0)
          (fun _ _ _ => 0) (fun _ _ _ => false) (fun _ _ => (fun _ => 0, fun _ => 0))
          (fun _ st => st)) :=
  ⟨rfl, rfl,
    claim_C8 1 1 1 0 0 0 0 (fun _ _ => 0) (fun _ _ => 0) (fun _ _ _ => 0)
      (fun _ _ _ => false) (fun _ _ => (fun _ => 0, fun _ => 0)) (fun _ st => st)
      rfl rfl⟩

theorem claim_C3_witness :
    (∀ i : Fin 1, (fun _ : Fin 1 => (1 : ℚ)) i = 0 ∨ (fun _ : Fin 1 => (1 : ℚ)) i = 1) ∧
    ((∀ i : Fin 1,
        (true_positive (fun _ : Fin 1 => (1 : ℚ))
            (correct_behavior (fun _ _ => (1 : ℚ)) (fun _ : Fin 1 => (1 : ℚ))
              (fun _ : Fin 1 => (0 : ℚ))) i).toNat
          + (true_negative (fun _ : Fin 1 => (1 : ℚ))
              (correct_behavior (fun _ _ => (1 : ℚ)) (fun _ : Fin 1 => (1 : ℚ))
                (fun _ : Fin 1 => (0 : ℚ))) i).toNat
          + (false_positive (fun _ : Fin 1 => (1 : ℚ))
              (correct_behavior (fun _ _ => (1 : ℚ)) (fun _ : Fin 1 => (1 : ℚ))
                (fun _ : Fin 1 => (0 : ℚ))) i).toNat
          + (false_negative (fun _ : Fin 1 => (1 : ℚ))
              (correct_behavior (fun _ _ => (1 : ℚ)) (fun _ : Fin 1 => (1 : ℚ))
                (fun _ : Fin 1 => (0 : ℚ))) i).toNat
          = 1) ∧
      (∀ i : Fin 1,
        rowTotal ((evaluate_behavior (fun _ : Fin 1 => (1 : ℚ)) (fun _ : Fin 1 => (0 : ℚ))
            (fun _ : Fin 1 => (1 : ℚ)) (fun _ _ => (1 : ℚ))
            (fun i : Fin 1 => ⟨i.val, 0, 0, 0, 0⟩)).2 i)
          = rowTotal ((fun i : Fin 1 => (⟨i.val, 0, 0, 0, 0⟩ : BehaviorRow)) i) + 1) ∧
      (∑ i : Fin 1,
        rowTotal ((evaluate_behavior (fun _ : Fin 1 => (1 : ℚ)) (fun _ : Fin 1 => (0 : ℚ))
            (fun _ : Fin 1 => (1 : ℚ)) (fun _ _ => (1 : ℚ))
            (fun i : Fin 1 => ⟨i.val, 0, 0, 0, 0⟩)).2 i))
        = (∑ i : Fin 1, rowTotal ((fun i : Fin 1 => (⟨i.val, 0, 0, 0, 0⟩ : BehaviorRow)) i)) + 1) :=
  ⟨by decide,
    claim_C3 (fun _ : Fin 1 => (1 : ℚ)) (fun _ : Fin 1 => (0 : ℚ))
      (fun _ : Fin 1 => (1 : ℚ)) (fun _ _ => (1 : ℚ))
      (fun i : Fin 1 => ⟨i.val, 0, 0, 0, 0⟩) (by decide)⟩
